import Mathlib

/-!
Verification of the parameter-sync logic of `src/builder.js`: the variable
registry, the inbound snapshot decoder (`parseSimulationState`), the
snapshot application (`updateVariablesFromServer`), the local edit paths
(`applyEdit` and the Up/Down button handlers), and the outbound encoder
(`sendVariableUpdate`).

Modelling conventions.  JavaScript numbers are embedded as rationals (ℚ);
`Math.PI` is the exact rational value of the IEEE-754 double that JavaScript
exposes as `Math.PI`.  `Math.round x` is `⌊x + 1/2⌋` (JavaScript rounds
half toward +∞).  Strings are handled as `List Char` where the code works
character-by-character.  JavaScript's regex `\s` and `String.trim` cover a
few extra Unicode spaces beyond ASCII whitespace; only ASCII whitespace is
modelled, which is all the protocol traffic uses.  The platform functions
`parseFloat` and `parseInt` are modelled on their documented decimal
grammar (scientific notation and the hexadecimal `parseInt` form are not
modelled; no input in this development exercises them).
-/

namespace PhysariumControl

/-- ASCII whitespace, modelling the regex class `\s` and `String.trim`. -/
def isWs (c : Char) : Bool :=
  c = ' ' || c = '\t' || c = '\n' || c = '\r'

/-- Word characters, modelling the regex class `\w` = [A-Za-z0-9_]. -/
def isWordChar (c : Char) : Bool :=
  ('a' ≤ c && c ≤ 'z') || ('A' ≤ c && c ≤ 'Z') || ('0' ≤ c && c ≤ '9') || c = '_'

/-- Decimal digits, modelling the regex class `\d`. -/
def isDigitChar (c : Char) : Bool :=
  '0' ≤ c && c ≤ '9'

/-- Numeric value of a run of decimal digit characters. -/
def digitsVal (cs : List Char) : ℕ :=
  cs.foldl (fun n c => 10 * n + (c.toNat - '0'.toNat)) 0

/-- JavaScript `String.trim` on a character list (ASCII whitespace). -/
def trimList (cs : List Char) : List Char :=
  ((cs.dropWhile isWs).reverse.dropWhile isWs).reverse

/-- JavaScript `Math.round`: round half toward positive infinity. -/
def jsRound (q : ℚ) : ℤ :=
  ⌊q + 1 / 2⌋

/-- The exact rational value of the IEEE-754 double `Math.PI`
(3.141592653589793, i.e. 884279719003555 / 2^48). -/
def jsPI : ℚ :=
  mkRat 884279719003555 281474976710656

/-- Variable kinds: the `type` field of a variable definition,
`"float"` or `"int"` in the source. -/
inductive VType where
  | float : VType
  | int : VType
deriving DecidableEq, Repr

/-- Optional min/max bounds: the `range` field of a variable definition.
Either bound may be absent (`undefined` in the source). -/
structure VarRange where
  min : Option ℚ
  max : Option ℚ
deriving DecidableEq, Repr

/-- A registry variable: the `VariableDef` objects of `builder.js`. -/
structure Variable where
  name : String
  type : VType
  value : ℚ
  step : Option ℚ
  range : Option VarRange
deriving DecidableEq, Repr

/-- The static registry (`const variables = [...]` in the source; the name
`variables` is reserved in Lean, hence the suffix). -/
def variablesList : List Variable :=
  [⟨"move_dist", .float, 0, some (mkRat 1 100), none⟩,
   ⟨"turn_rate", .float, 0, some (mkRat 1 2), none⟩,
   ⟨"sample_dist", .float, 0, some (mkRat 1 100), none⟩,
   ⟨"sample_angle", .float, 0, some (mkRat 1 20), none⟩,
   ⟨"move_dist_mod", .float, 0, some (mkRat 1 100), none⟩,
   ⟨"turn_rate_mod", .float, 0, some (mkRat 1 2), none⟩,
   ⟨"sample_dist_mod", .float, 0, some (mkRat 1 100), none⟩,
   ⟨"sample_angle_mod", .float, 0, some (mkRat 1 20), none⟩,
   ⟨"density_scale", .int, 0, some 1, none⟩,
   ⟨"pheromone_decay_rate", .float, 0, some (mkRat (-1) 2),
     some ⟨some (-100), some 1⟩⟩]

/-- `getDefaultStep` from the source: 1 for int, 0.1 otherwise. -/
def getDefaultStep (t : VType) : ℚ :=
  if t = VType.int then 1 else mkRat 1 10

/-- The effective step used by the Up/Down handlers:
`variable_def.step || getDefaultStep(variable_def.type)`.  JavaScript `||`
falls through on `undefined` and on `0`. -/
def effStep (v : Variable) : ℚ :=
  match v.step with
  | some s => if s = 0 then getDefaultStep v.type else s
  | none => getDefaultStep v.type

/-- `clampValue` from the source: apply `Math.max` with `range.min` when
defined, then `Math.min` with `range.max` when defined; no range is a
no-op. -/
def clampValue (value : ℚ) (range : Option VarRange) : ℚ :=
  match range with
  | none => value
  | some r =>
    let c₁ := match r.min with
      | some mn => Max.max mn value
      | none => value
    match r.max with
    | some mx => Min.min mx c₁
    | none => c₁

/-- The four angle-designated variable names (`angleVariables` in
`updateVariablesFromServer`). -/
def angleVariables : List String :=
  ["turn_rate", "sample_angle", "turn_rate_mod", "sample_angle_mod"]

/-- The per-variable normalization performed by `updateVariablesFromServer`
on an inbound raw value: angle conversion (divide by `Math.PI`, round to 4
decimal places) when the name is angle-designated, then `Math.round` when
the type is int, then clamp. -/
def snapshotValue (v : Variable) (raw : ℚ) : ℚ :=
  let newValue :=
    if angleVariables.contains v.name then
      (jsRound (raw / jsPI * 10000) : ℚ) / 10000
    else raw
  let finalValue :=
    if v.type = VType.int then (jsRound newValue : ℚ) else newValue
  clampValue finalValue v.range

/-- Lookup in the decoded snapshot object: a later assignment to the same
key overwrites an earlier one, as JavaScript object assignment does, so the
last binding wins. -/
def stateLookup (st : List (String × ℚ)) (k : String) : Option ℚ :=
  st.foldl (fun acc p => if p.1 = k then some p.2 else acc) none

/-- `updateVariablesFromServer` from the source: for each registry variable
whose name is a key of the decoded snapshot, store the normalized value;
variables whose names are absent are untouched. -/
def updateVariablesFromServer (vars : List Variable) (st : List (String × ℚ)) :
    List Variable :=
  vars.map fun v =>
    match stateLookup st v.name with
    | some raw => { v with value := snapshotValue v raw }
    | none => v

/-- The unsigned numeric part of the regex `-?\d*\.?\d+` with its
backtracking semantics, fused with `parseFloat` of the matched text: a
maximal digit run `d1`, then an optional `.` followed by a maximal digit
run `d2`.  When `d2` is nonempty the match is `d1.d2`; when the dot is
absent or `d2` is empty the engine backtracks and the match is `d1` alone
(which must then be nonempty).  The returned rational is the decimal value
of the matched literal, exactly what `parseFloat` yields on it (the value
of `d1.d2` is the digit string `d1 ++ d2` over the denominator
`10 ^ d2.length`, written with `mkRat`). -/
def matchUnsigned (cs : List Char) : Option ℚ :=
  let d1 := cs.takeWhile isDigitChar
  let r1 := cs.dropWhile isDigitChar
  if r1.head? = some '.' then
    let d2 := r1.tail.takeWhile isDigitChar
    if d2.isEmpty then
      if d1.isEmpty then none else some (digitsVal d1 : ℚ)
    else
      some (mkRat (digitsVal (d1 ++ d2) : ℕ) (10 ^ d2.length))
  else if d1.isEmpty then none else some (digitsVal d1 : ℚ)

/-- The full numeric part `-?\d*\.?\d+` of the assignment regex: an
optional leading minus sign.  If the sign is present but no number
follows, the empty alternative of `-?` also fails, so consuming the sign
when present is faithful to the backtracking engine. -/
def matchNumber (cs : List Char) : Option ℚ :=
  if cs.head? = some '-' then (matchUnsigned cs.tail).map Neg.neg
  else matchUnsigned cs

/-- The optional leading dot tolerated before a key: the regex piece
`^\.?` (when the next character is a dot the greedy optional consumes it;
if the rest then fails the empty alternative fails as well, because `\w`
does not match a dot). -/
def stripLeadDot (cs : List Char) : List Char :=
  if cs.head? = some '.' then cs.tail else cs

/-- One fragment match: the regex `^\.?(\w+)\s*=\s*(-?\d*\.?\d+)` applied
to a trimmed assignment fragment, returning the captured name and the
`parseFloat` of the captured numeric literal.  The regex is anchored at
the start only; trailing characters after the numeric literal are
ignored.  Greedy maximal-munch is equivalent to the backtracking engine
here: `\w+` cannot usefully give back characters (a word character can
satisfy neither `\s*` nor `=`), and the numeric backtracking is resolved
inside `matchUnsigned`. -/
def matchAssignment (cs : List Char) : Option (String × ℚ) :=
  let cs₁ := stripLeadDot cs
  let nm := cs₁.takeWhile isWordChar
  let r₁ := cs₁.dropWhile isWordChar
  if nm.isEmpty then none
  else
    let r₂ := r₁.dropWhile isWs
    if r₂.head? = some '=' then
      (matchNumber (r₂.tail.dropWhile isWs)).map fun q => (String.mk nm, q)
    else none

/-- `replace(/^\.?\{/, "")`: strip one leading `.` and/or `{` when the
brace is present at the start (the regex requires the brace). -/
def stripStartBrace (cs : List Char) : List Char :=
  match cs with
  | '.' :: '{' :: rest => rest
  | '{' :: rest => rest
  | _ => cs

/-- `replace(/}$/, "")`: strip one trailing `}` when present. -/
def stripEndBrace (cs : List Char) : List Char :=
  if cs.getLast? = some '}' then cs.dropLast else cs

/-- JavaScript `String.split(",")`: split at every comma, keeping empty
pieces; the empty string yields one empty piece. -/
def splitComma (cs : List Char) : List (List Char) :=
  cs.foldr
    (fun c acc =>
      if c = ',' then [] :: acc
      else
        match acc with
        | a :: rest => (c :: a) :: rest
        | [] => [[c]])
    [[]]

/-- `parseSimulationState` from the source: trim, strip the optional
wrapping `.{ ... }`, split on commas, and collect the fragments matched by
the assignment regex, in order; later assignments to the same key
overwrite earlier ones at lookup time (`stateLookup`).  The source wraps
the whole pipeline in try/catch and returns `null` on a thrown exception;
the result type is `Option` to mirror that.  Every operation of the
embedded pipeline is total, so the embedding always returns `some`; the
callers' handling of the `none` case is modelled in
`handleDecodedState`. -/
def parseSimulationState (cs : List Char) : Option (List (String × ℚ)) :=
  let clean := stripEndBrace (stripStartBrace (trimList cs))
  some <| (splitComma clean).foldl
    (fun st a =>
      match matchAssignment (trimList a) with
      | some kv => st ++ [kv]
      | none => st)
    []

/-- The decoded-state branch of the websocket message handler: a decoded
mapping is applied with `updateVariablesFromServer`; a `null` decode only
logs a warning and applies nothing. -/
def handleDecodedState (vars : List Variable)
    (decoded : Option (List (String × ℚ))) : List Variable :=
  match decoded with
  | some st => updateVariablesFromServer vars st
  | none => vars

/-- The websocket message handler from `initWebSocket`: trim the payload;
a line starting with `Success: ` has the 9-character envelope stripped and
is decoded and applied; any other line is logged and ignored. -/
def handleServerMessage (vars : List Variable) (data : String) : List Variable :=
  let message := trimList data.data
  if message.take 9 = "Success: ".data then
    handleDecodedState vars (parseSimulationState (message.drop 9))
  else vars

/-- The platform `parseFloat`: skip leading whitespace, an optional sign,
then the longest decimal literal (`digits`, `digits.digits`, `.digits`, or
`digits.`), returning `none` where JavaScript returns `NaN`.  The decimal
grammar coincides with `matchUnsigned`.  Scientific notation is not
modelled (no input here uses it). -/
def jsParseFloat (s : String) : Option ℚ :=
  let cs := s.data.dropWhile isWs
  if cs.head? = some '-' then (matchUnsigned cs.tail).map Neg.neg
  else if cs.head? = some '+' then matchUnsigned cs.tail
  else matchUnsigned cs

/-- The platform `parseInt` (no radix argument): skip leading whitespace,
an optional sign, then the longest run of decimal digits, truncating at
the first non-digit; `none` where JavaScript returns `NaN`.  The `0x`
hexadecimal form is not modelled (no input here uses it). -/
def jsParseInt (s : String) : Option ℤ :=
  let mag : List Char → Option ℤ := fun t =>
    let d := t.takeWhile isDigitChar
    if d.isEmpty then none else some (digitsVal d : ℤ)
  let cs := s.data.dropWhile isWs
  if cs.head? = some '-' then (mag cs.tail).map Neg.neg
  else if cs.head? = some '+' then mag cs.tail
  else mag cs

/-- The new value computed by `VariableComponent.applyEdit` when an edit is
committed: `parseFloat(text) || 0`, replaced by `parseInt(text) || 0` for
int-typed variables, then clamped.  JavaScript `||` maps `NaN` to `0` and
leaves every other parse result unchanged (a parsed `0` stays `0`). -/
def applyEdit (v : Variable) (text : String) : ℚ :=
  let newValue := (jsParseFloat text).getD 0
  let newValue :=
    if v.type = VType.int then (((jsParseInt text).getD 0 : ℤ) : ℚ) else newValue
  clampValue newValue v.range

/-- The number of digits after the decimal point in the step's canonical
text form: `step.toString().split(".")[1]?.length || 0` in the source.
For a rational written in lowest terms this is the least `d` with
`den ∣ 10^d` (the length of the shortest exact decimal expansion); 0 when
no such `d` exists below the search bound (such a step would print in
JavaScript with a fractional part, but every step in the registry is a
short exact decimal). -/
def decimalsOf (q : ℚ) : ℕ :=
  (((List.range 100).find? fun d => q.den ∣ 10 ^ d).getD 0)

/-- The Up button handler: add the effective step, clamp, and for
float-typed variables round to `decimalsOf step` decimal places (the
rounding happens after the clamp in the source). -/
def incValue (v : Variable) : ℚ :=
  let step := effStep v
  let newValue := clampValue (v.value + step) v.range
  if v.type = VType.float then
    let d := decimalsOf step
    (jsRound (newValue * 10 ^ d) : ℚ) / 10 ^ d
  else newValue

/-- The Down button handler: identical to the Up handler with the step
subtracted. -/
def decValue (v : Variable) : ℚ :=
  let step := effStep v
  let newValue := clampValue (v.value - step) v.range
  if v.type = VType.float then
    let d := decimalsOf step
    (jsRound (newValue * 10 ^ d) : ℚ) / 10 ^ d
  else newValue

/-- JavaScript `variableName.endsWith("_mod")`. -/
def strEndsWithMod (s : String) : Bool :=
  s.data.reverse.take 4 = ['d', 'o', 'm', '_']

/-- JavaScript `variableName.slice(0, -4)`: drop the last four
characters. -/
def strDropLast4 (s : String) : String :=
  String.mk (s.data.take (s.data.length - 4))

/-- Template interpolation of a number (ECMAScript Number::toString):
integers print with no fractional part.  Non-integral formatting is
shortest-round-trip decimal in JavaScript; it is kept abstract here as the
rational's own rendering, which no theorem below depends on. -/
def jsNumToString (q : ℚ) : String :=
  if q.den = 1 then toString q.num else toString q

/-- `sendVariableUpdate` from the source: when the socket is not open, log
a warning and send nothing; otherwise strip a trailing `_mod` from the
name, build `"<baseName> <value>"`, and append `" mod"` when the suffix
was present.  The result is the wire text actually passed to `ws.send`,
`none` when the send is dropped. -/
def sendVariableUpdate (wsOpen : Bool) (variableName : String) (value : ℚ) :
    Option String :=
  if wsOpen = false then none
  else
    let hasMod := strEndsWithMod variableName
    let baseName := if hasMod then strDropLast4 variableName else variableName
    let message := baseName ++ " " ++ jsNumToString value
    let message := if hasMod then message ++ " mod" else message
    some message

/-- The complete applyEdit commit: the registry mutation (which the source
performs first, unconditionally) paired with the attempted send. -/
def applyEditCommit (wsOpen : Bool) (v : Variable) (text : String) :
    ℚ × Option String :=
  let nv := applyEdit v text
  (nv, sendVariableUpdate wsOpen v.name nv)

/-- The complete Up-button commit: mutation paired with the attempted
send. -/
def incCommit (wsOpen : Bool) (v : Variable) : ℚ × Option String :=
  let nv := incValue v
  (nv, sendVariableUpdate wsOpen v.name nv)

/-- The complete Down-button commit: mutation paired with the attempted
send. -/
def decCommit (wsOpen : Bool) (v : Variable) : ℚ × Option String :=
  let nv := decValue v
  (nv, sendVariableUpdate wsOpen v.name nv)

/-! Helper lemmas. -/

/-- Clamping with both bounds present lands in the inclusive interval
whenever the interval is nonempty. -/
theorem clampValue_mem (x mn mx : ℚ) (h : mn ≤ mx) :
    mn ≤ clampValue x (some ⟨some mn, some mx⟩) ∧
    clampValue x (some ⟨some mn, some mx⟩) ≤ mx := by
  constructor
  · exact le_min h (le_max_left mn x)
  · exact min_le_left mx _

/-- Rounding to one decimal place keeps a value of the interval
[-100, 1] inside the interval: its bounds are exact one-decimal
numbers. -/
theorem roundToDecimals1_mem (y : ℚ) (h1 : -100 ≤ y) (h2 : y ≤ 1) :
    -100 ≤ (jsRound (y * 10 ^ 1) : ℚ) / 10 ^ 1 ∧
    (jsRound (y * 10 ^ 1) : ℚ) / 10 ^ 1 ≤ 1 := by
  have hlo : (-1000 : ℤ) ≤ jsRound (y * 10 ^ 1) := by
    rw [jsRound, Int.le_floor]
    push_cast
    linarith
  have hhi : jsRound (y * 10 ^ 1) ≤ 10 := by
    have h11 : jsRound (y * 10 ^ 1) < 11 := by
      rw [jsRound, Int.floor_lt]
      push_cast
      linarith
    omega
  constructor
  · rw [le_div_iff₀ (by norm_num : (0 : ℚ) < 10 ^ 1)]
    calc (-100 : ℚ) * 10 ^ 1 = ((-1000 : ℤ) : ℚ) := by norm_num
      _ ≤ _ := by exact_mod_cast hlo
  · rw [div_le_iff₀ (by norm_num : (0 : ℚ) < 10 ^ 1)]
    calc ((jsRound (y * 10 ^ 1) : ℤ) : ℚ) ≤ ((10 : ℤ) : ℚ) := by exact_mod_cast hhi
      _ = 1 * 10 ^ 1 := by norm_num

/-- Taking word characters stops exactly at the first non-word
character. -/
theorem takeWhile_append_cons (p : Char → Bool) (l₁ : List Char) (x : Char)
    (l₂ : List Char) (h : ∀ c ∈ l₁, p c = true) (hx : p x = false) :
    (l₁ ++ x :: l₂).takeWhile p = l₁ := by
  induction l₁ with
  | nil => simp [List.takeWhile_cons, hx]
  | cons a t ih =>
    have ha : p a = true := h a (by simp)
    simp [List.takeWhile_cons, ha, ih fun c hc => h c (by simp [hc])]

/-- Dropping word characters stops exactly at the first non-word
character. -/
theorem dropWhile_append_cons (p : Char → Bool) (l₁ : List Char) (x : Char)
    (l₂ : List Char) (h : ∀ c ∈ l₁, p c = true) (hx : p x = false) :
    (l₁ ++ x :: l₂).dropWhile p = x :: l₂ := by
  induction l₁ with
  | nil => simp [List.dropWhile_cons, hx]
  | cons a t ih =>
    have ha : p a = true := h a (by simp)
    simp [List.dropWhile_cons, ha, ih fun c hc => h c (by simp [hc])]

/-- A successful number match cannot start with whitespace, so the
`\s*` preceding it consumes nothing. -/
theorem matchNumber_not_ws (t : List Char) (v : ℚ) (h : matchNumber t = some v) :
    t.dropWhile isWs = t := by
  cases t with
  | nil => rfl
  | cons c r =>
    have hc : isWs c = false := by
      by_contra hws
      have hws' : isWs c = true := by
        revert hws
        cases isWs c <;> simp
      have hcs : ((c = ' ' ∨ c = '\t') ∨ c = '\n') ∨ c = '\r' := by
        simpa [isWs] using hws'
      have hnone : matchNumber (c :: r) = none := by
        rcases hcs with ((rfl | rfl) | rfl) | rfl <;> rfl
      rw [hnone] at h
      cases h
    rw [List.dropWhile_cons_of_neg (by simp [hc])]

/-- Appending the literal suffix to any base makes `endsWith "_mod"`
true. -/
theorem strEndsWithMod_append (base : String) :
    strEndsWithMod (base ++ "_mod") = true := by
  have h : (base ++ "_mod").data = base.data ++ ['_', 'm', 'o', 'd'] :=
    String.data_append base "_mod"
  simp only [strEndsWithMod, h, List.reverse_append]
  rfl

/-- Slicing four characters off `base ++ "_mod"` recovers `base`. -/
theorem strDropLast4_append (base : String) :
    strDropLast4 (base ++ "_mod") = base := by
  have h : (base ++ "_mod").data = base.data ++ ['_', 'm', 'o', 'd'] :=
    String.data_append base "_mod"
  simp only [strDropLast4, h, List.length_append, List.length_cons,
    List.length_nil, Nat.add_sub_cancel]
  rw [List.take_left' rfl]

/-! Claims. -/

/-- C4: when the snapshot decoder yields no result (the `null` returned by
the source's try/catch), the message handler applies nothing: the registry
after handling that message is the registry before it. -/
theorem c4_null_decode_leaves_registry :
    ∀ (vars : List Variable), handleDecodedState vars none = vars :=
  fun _ => rfl

/-- C7: decoding the line `".{a=1, b=bad, c=3.5}"` yields exactly the
mapping with `a ↦ 1` and `c ↦ 3.5`; the malformed fragment `b=bad` is
silently skipped and the decoder still returns a result (`some`, the
embedding of a run in which no exception escapes). -/
theorem c7_decode_permissive :
    parseSimulationState ".\x7ba=1, b=bad, c=3.5\x7d".data =
      some [("a", 1), ("c", mkRat 7 2)] := by
  decide

/-- C9: with the transport absent or not OPEN, every mutation path updates
the registry value exactly as it would with an open transport — the first
components below do not depend on the socket state — and only the wire
send is skipped (`none`), with no rollback. -/
theorem c9_closed_socket_keeps_local_mutation :
    ∀ (wsOpen : Bool) (v : Variable) (text : String),
      (applyEditCommit wsOpen v text).1 = applyEdit v text ∧
      (incCommit wsOpen v).1 = incValue v ∧
      (decCommit wsOpen v).1 = decValue v ∧
      (applyEditCommit false v text).2 = none ∧
      (incCommit false v).2 = none ∧
      (decCommit false v).2 = none :=
  fun _ _ _ => ⟨rfl, rfl, rfl, rfl, rfl, rfl⟩

/-- C6: the outbound encoder produces `"<name> <value>"` for a name that
does not end in `_mod`, and `"<base> <value> mod"` with the suffix
stripped when the name is `base ++ "_mod"`; in particular encoding
`sample_angle_mod` with value 2 produces exactly
`"sample_angle 2 mod"`. -/
theorem c6_outbound_wire_format :
    ∀ (name : String) (value : ℚ),
      (strEndsWithMod name = false →
        sendVariableUpdate true name value =
          some (name ++ " " ++ jsNumToString value)) ∧
      (∀ base : String, name = base ++ "_mod" →
        sendVariableUpdate true name value =
          some (base ++ " " ++ jsNumToString value ++ " mod")) ∧
      sendVariableUpdate true "sample_angle_mod" 2 = some "sample_angle 2 mod" := by
  intro name value
  refine ⟨fun h => ?_, fun base hb => ?_, by decide⟩
  · simp [sendVariableUpdate, h]
  · subst hb
    simp [sendVariableUpdate, strEndsWithMod_append, strDropLast4_append]

/-- Witness for C6 at concrete inputs. -/
theorem c6_outbound_wire_format_witness :
    sendVariableUpdate true "move_dist" 2 =
      some ("move_dist" ++ " " ++ jsNumToString 2) ∧
    sendVariableUpdate true "sample_angle_mod" 3 =
      some ("sample_angle" ++ " " ++ jsNumToString 3 ++ " mod") :=
  ⟨(c6_outbound_wire_format "move_dist" 2).1 (by decide),
   (c6_outbound_wire_format "sample_angle_mod" 3).2.1 "sample_angle" (by decide)⟩

/-- C5: applying a decoded snapshot preserves the registry's length, keeps
every variable whose name is not a key of the mapping entirely unchanged
(all fields), and is insensitive to decoded keys that match no registry
variable: two mappings that agree on the registry's names produce the same
result. -/
theorem c5_snapshot_frame :
    ∀ (vars : List Variable) (st st₂ : List (String × ℚ)),
      (updateVariablesFromServer vars st).length = vars.length ∧
      (∀ (i : ℕ) (v : Variable), vars[i]? = some v →
        stateLookup st v.name = none →
        (updateVariablesFromServer vars st)[i]? = some v) ∧
      ((∀ v ∈ vars, stateLookup st v.name = stateLookup st₂ v.name) →
        updateVariablesFromServer vars st = updateVariablesFromServer vars st₂) := by
  intro vars st st₂
  refine ⟨by simp [updateVariablesFromServer], fun i v hv hlook => ?_,
    fun hagree => ?_⟩
  · simp [updateVariablesFromServer, hv, hlook]
  · exact List.map_congr_left fun v hv => by rw [hagree v hv]

/-- Witness for C5: a one-variable registry, a snapshot that misses it,
and an extra unknown key with no effect. -/
theorem c5_snapshot_frame_witness :
    (updateVariablesFromServer [⟨"b", .float, 7, none, none⟩] [("a", 5)])[0]? =
      some ⟨"b", .float, 7, none, none⟩ ∧
    updateVariablesFromServer [⟨"b", .float, 7, none, none⟩] [("a", 5)] =
      updateVariablesFromServer [⟨"b", .float, 7, none, none⟩] [("a", 5), ("x", 1)] :=
  ⟨(c5_snapshot_frame _ [("a", 5)] [("x", 1)]).2.1 0 _ (by decide) (by decide),
   (c5_snapshot_frame _ [("a", 5)] [("a", 5), ("x", 1)]).2.2 (by decide)⟩

/-- C8: an edit whose text parses as neither a float nor an int commits
the numeric value zero, clamped to the variable's range, rather than being
rejected. -/
theorem c8_unparsable_edit_commits_zero :
    ∀ (v : Variable) (text : String),
      jsParseFloat text = none → jsParseInt text = none →
      applyEdit v text = clampValue 0 v.range := by
  intro v text hf hi
  simp [applyEdit, hf, hi]

/-- Witness for C8: committing `"abc"` on a variable with range
[1, 10] stores 1. -/
theorem c8_unparsable_edit_commits_zero_witness :
    applyEdit ⟨"x", .float, 0, some (mkRat 1 10), some ⟨some 1, some 10⟩⟩ "abc" =
      clampValue 0 (some ⟨some 1, some 10⟩) ∧
    clampValue 0 (some ⟨some 1, some 10⟩) = 1 :=
  ⟨c8_unparsable_edit_commits_zero _ "abc" (by decide) (by decide), by decide⟩

/-- C10: the assignment regex is anchored only at the fragment's start, so
any fragment `name=rest` whose right-hand side begins with a numeric
literal (in the sense of the code's own number matcher, which ignores
whatever follows the literal) is accepted, with that leading literal's
value — it is not skipped as malformed. -/
theorem c10_trailing_junk_accepted :
    ∀ (nm t : List Char) (v : ℚ),
      nm ≠ [] → (∀ c ∈ nm, isWordChar c = true) → matchNumber t = some v →
      matchAssignment (nm ++ '=' :: t) = some (String.mk nm, v) := by
  intro nm t v hne hword hnum
  obtain ⟨c, nm', rfl⟩ := List.exists_cons_of_ne_nil hne
  have hc : isWordChar c = true := hword c (List.mem_cons_self c nm')
  have hcdot : c ≠ '.' := by
    intro h
    rw [h] at hc
    exact absurd hc (by decide)
  have hstrip : stripLeadDot (c :: (nm' ++ '=' :: t)) = c :: (nm' ++ '=' :: t) := by
    rw [stripLeadDot, if_neg]
    simp [hcdot]
  have heq : isWordChar '=' = false := by decide
  have htake : ((c :: nm') ++ '=' :: t).takeWhile isWordChar = c :: nm' :=
    takeWhile_append_cons isWordChar (c :: nm') '=' t hword heq
  have hdrop : ((c :: nm') ++ '=' :: t).dropWhile isWordChar = '=' :: t :=
    dropWhile_append_cons isWordChar (c :: nm') '=' t hword heq
  have hws : ('=' :: t).dropWhile isWs = '=' :: t :=
    List.dropWhile_cons_of_neg (by decide)
  simp only [matchAssignment, List.cons_append, hstrip] at *
  rw [htake, hdrop, if_neg (by simp), hws]
  rw [if_pos (show ('=' :: t).head? = some '=' from rfl), List.tail_cons,
    matchNumber_not_ws t v hnum, hnum]
  rfl

/-- Witness for C10: the fragment `a=5x` is accepted with value 5, hence
so is the whole line containing it. -/
theorem c10_trailing_junk_accepted_witness :
    matchNumber "5x".data = some 5 ∧
    matchAssignment "a=5x".data = some (String.mk ['a'], 5) :=
  ⟨by decide,
   c10_trailing_junk_accepted ['a'] "5x".data 5 (by decide) (by decide) (by decide)⟩

/-- C2 counterexample: the claim's two stated outputs are not what the
code produces.  Committing the text `"2.9"` on the integer variable
`density_scale` stores 2 (the `parseInt` truncation), not the nearest
integer 3; and normalizing the inbound value -0.5 on that variable stores
0 (`Math.round` rounds half toward +∞), not -1. -/
theorem c2_counterexample :
    applyEdit ⟨"density_scale", .int, 0, some 1, none⟩ "2.9" = 2 ∧
    (2 : ℚ) ≠ 3 ∧
    snapshotValue ⟨"density_scale", .int, 0, some 1, none⟩ (mkRat (-1) 2) = 0 ∧
    (0 : ℚ) ≠ -1 := by
  refine ⟨by decide, by norm_num, ?_, by norm_num⟩
  have h1 : angleVariables.contains "density_scale" = false := by decide
  simp only [snapshotValue, h1, Bool.false_eq_true, if_false, if_pos rfl,
    clampValue, jsRound]
  norm_num [Rat.mkRat_eq_div]

/-- C2 amended: for an integer-kind variable (outside the angle set, with
no range to clamp), an inbound snapshot value `raw` stores the unique
integer `n` with `raw - 1/2 < n ≤ raw + 1/2` — the nearest integer with
ties resolved toward +∞, not away from zero — while a committed local edit
stores the `parseInt` truncation of the typed text (e.g. `"2.9"` stores
2). -/
theorem c2_amended_int_normalization :
    ∀ (v : Variable) (raw : ℚ) (text : String),
      v.type = VType.int → v.name ∉ angleVariables → v.range = none →
      (∃ n : ℤ, snapshotValue v raw = (n : ℚ) ∧
        raw - 1 / 2 < (n : ℚ) ∧ (n : ℚ) ≤ raw + 1 / 2) ∧
      applyEdit v text = (((jsParseInt text).getD 0 : ℤ) : ℚ) := by
  intro v raw text htype hangle hrange
  constructor
  · refine ⟨jsRound raw, ?_, ?_, ?_⟩
    · simp [snapshotValue, htype, hrange, clampValue, hangle]
    · have h := Int.sub_one_lt_floor (raw + 1 / 2)
      rw [jsRound]
      linarith
    · have h := Int.floor_le (raw + 1 / 2)
      rw [jsRound]
      linarith
  · simp [applyEdit, htype, hrange, clampValue]

/-- Witness for C2's amended statement at the `density_scale` variable
with inbound -0.5 and the typed text `"2.9"`. -/
theorem c2_amended_int_normalization_witness :
    (∃ n : ℤ,
      snapshotValue ⟨"density_scale", .int, 0, some 1, none⟩ (mkRat (-1) 2) = (n : ℚ) ∧
      mkRat (-1) 2 - 1 / 2 < (n : ℚ) ∧ (n : ℚ) ≤ mkRat (-1) 2 + 1 / 2) ∧
    applyEdit ⟨"density_scale", .int, 0, some 1, none⟩ "2.9" =
      (((jsParseInt "2.9").getD 0 : ℤ) : ℚ) :=
  c2_amended_int_normalization _ (mkRat (-1) 2) "2.9" rfl (by decide) rfl

/-- C3: for every registry variable with an angle-designated name, the
inbound stored value is `round((raw / π) * 10000) / 10000` (the four angle
variables are float-typed and unbounded, so nothing further applies),
while the outbound encoder interpolates the stored value itself into the
wire text — it never multiplies by π, so the conversion is inbound
only. -/
theorem c3_angle_conversion_inbound_only :
    ∀ v ∈ variablesList, v.name ∈ angleVariables →
    ∀ (raw q : ℚ),
      snapshotValue v raw = (jsRound (raw / jsPI * 10000) : ℚ) / 10000 ∧
      ∃ base tok, (tok = "" ∨ tok = " mod") ∧
        sendVariableUpdate true v.name q =
          some (base ++ " " ++ jsNumToString q ++ tok) := by
  intro v hv hang raw q
  simp only [variablesList, List.mem_cons, List.not_mem_nil, or_false] at hv
  rcases hv with rfl | rfl | rfl | rfl | rfl | rfl | rfl | rfl | rfl | rfl
  case _ => exact absurd hang (by decide)
  case _ =>
    refine ⟨by simp [snapshotValue, clampValue, angleVariables], ?_⟩
    refine ⟨"turn_rate", "", Or.inl rfl, ?_⟩
    simp [sendVariableUpdate,
      show strEndsWithMod "turn_rate" = false from rfl, String.append_empty]
  case _ => exact absurd hang (by decide)
  case _ =>
    refine ⟨by simp [snapshotValue, clampValue, angleVariables], ?_⟩
    refine ⟨"sample_angle", "", Or.inl rfl, ?_⟩
    simp [sendVariableUpdate,
      show strEndsWithMod "sample_angle" = false from rfl, String.append_empty]
  case _ => exact absurd hang (by decide)
  case _ =>
    refine ⟨by simp [snapshotValue, clampValue, angleVariables], ?_⟩
    refine ⟨"turn_rate", " mod", Or.inr rfl, ?_⟩
    simp [sendVariableUpdate,
      show strEndsWithMod "turn_rate_mod" = true from rfl,
      show strDropLast4 "turn_rate_mod" = "turn_rate" from rfl]
  case _ => exact absurd hang (by decide)
  case _ =>
    refine ⟨by simp [snapshotValue, clampValue, angleVariables], ?_⟩
    refine ⟨"sample_angle", " mod", Or.inr rfl, ?_⟩
    simp [sendVariableUpdate,
      show strEndsWithMod "sample_angle_mod" = true from rfl,
      show strDropLast4 "sample_angle_mod" = "sample_angle" from rfl]
  case _ => exact absurd hang (by decide)
  case _ => exact absurd hang (by decide)

/-- Witness for C3 at the `turn_rate` variable with the spec's example
inbound value 3.14159 and outbound value 2. -/
theorem c3_angle_conversion_inbound_only_witness :
    snapshotValue ⟨"turn_rate", .float, 0, some (mkRat 1 2), none⟩
        (mkRat 314159 100000) =
      (jsRound (mkRat 314159 100000 / jsPI * 10000) : ℚ) / 10000 ∧
    ∃ base tok, (tok = "" ∨ tok = " mod") ∧
      sendVariableUpdate true "turn_rate" 2 =
        some (base ++ " " ++ jsNumToString 2 ++ tok) :=
  c3_angle_conversion_inbound_only
    ⟨"turn_rate", .float, 0, some (mkRat 1 2), none⟩ (by decide) (by decide)
    (mkRat 314159 100000) 2

/-- C1: every registry variable with a defined two-sided range keeps its
stored value inside the inclusive bounds along all three mutation paths —
inbound snapshot, committed edit, and the Up/Down buttons (where the
one-decimal rounding happens after the clamp but cannot escape the bounds,
because the only ranged variable's bounds -100 and 1 are exact one-decimal
numbers for its step 0.5). -/
theorem c1_values_stay_in_range :
    ∀ v ∈ variablesList, ∀ (r : VarRange) (mn mx : ℚ),
      v.range = some r → r.min = some mn → r.max = some mx →
      ∀ (c raw : ℚ) (text : String),
        (mn ≤ snapshotValue v raw ∧ snapshotValue v raw ≤ mx) ∧
        (mn ≤ applyEdit v text ∧ applyEdit v text ≤ mx) ∧
        (mn ≤ incValue { v with value := c } ∧
          incValue { v with value := c } ≤ mx) ∧
        (mn ≤ decValue { v with value := c } ∧
          decValue { v with value := c } ≤ mx) := by
  intro v hv r mn mx hr hmin hmax c raw text
  simp only [variablesList, List.mem_cons, List.not_mem_nil, or_false] at hv
  rcases hv with rfl | rfl | rfl | rfl | rfl | rfl | rfl | rfl | rfl | rfl
  case _ => exact Option.noConfusion hr
  case _ => exact Option.noConfusion hr
  case _ => exact Option.noConfusion hr
  case _ => exact Option.noConfusion hr
  case _ => exact Option.noConfusion hr
  case _ => exact Option.noConfusion hr
  case _ => exact Option.noConfusion hr
  case _ => exact Option.noConfusion hr
  case _ => exact Option.noConfusion hr
  case _ =>
    cases hr
    cases hmin
    cases hmax
    have hd : decimalsOf (mkRat (-1) 2) = 1 := by decide
    refine ⟨clampValue_mem _ (-100) 1 (by norm_num),
      clampValue_mem _ (-100) 1 (by norm_num), ?_, ?_⟩
    · have hook : incValue
          ⟨"pheromone_decay_rate", .float, c, some (mkRat (-1) 2),
            some ⟨some (-100), some 1⟩⟩ =
          (jsRound (clampValue (c + mkRat (-1) 2)
              (some ⟨some (-100), some 1⟩) * 10 ^ decimalsOf (mkRat (-1) 2)) : ℚ) /
            10 ^ decimalsOf (mkRat (-1) 2) := rfl
      dsimp only
      rw [hook, hd]
      exact roundToDecimals1_mem _
        (clampValue_mem _ (-100) 1 (by norm_num)).1
        (clampValue_mem _ (-100) 1 (by norm_num)).2
    · have hook : decValue
          ⟨"pheromone_decay_rate", .float, c, some (mkRat (-1) 2),
            some ⟨some (-100), some 1⟩⟩ =
          (jsRound (clampValue (c - mkRat (-1) 2)
              (some ⟨some (-100), some 1⟩) * 10 ^ decimalsOf (mkRat (-1) 2)) : ℚ) /
            10 ^ decimalsOf (mkRat (-1) 2) := rfl
      dsimp only
      rw [hook, hd]
      exact roundToDecimals1_mem _
        (clampValue_mem _ (-100) 1 (by norm_num)).1
        (clampValue_mem _ (-100) 1 (by norm_num)).2

/-- Witness for C1 at the only ranged registry variable,
`pheromone_decay_rate`, with current value 0, inbound value 5 and the
typed text `"abc"`. -/
theorem c1_values_stay_in_range_witness :
    ((-100 : ℚ) ≤ snapshotValue
        ⟨"pheromone_decay_rate", .float, 0, some (mkRat (-1) 2),
          some ⟨some (-100), some 1⟩⟩ 5 ∧
      snapshotValue
        ⟨"pheromone_decay_rate", .float, 0, some (mkRat (-1) 2),
          some ⟨some (-100), some 1⟩⟩ 5 ≤ 1) ∧
    ((-100 : ℚ) ≤ applyEdit
        ⟨"pheromone_decay_rate", .float, 0, some (mkRat (-1) 2),
          some ⟨some (-100), some 1⟩⟩ "abc" ∧
      applyEdit
        ⟨"pheromone_decay_rate", .float, 0, some (mkRat (-1) 2),
          some ⟨some (-100), some 1⟩⟩ "abc" ≤ 1) ∧
    ((-100 : ℚ) ≤ incValue
        ⟨"pheromone_decay_rate", .float, 0, some (mkRat (-1) 2),
          some ⟨some (-100), some 1⟩⟩ ∧
      incValue
        ⟨"pheromone_decay_rate", .float, 0, some (mkRat (-1) 2),
          some ⟨some (-100), some 1⟩⟩ ≤ 1) ∧
    ((-100 : ℚ) ≤ decValue
        ⟨"pheromone_decay_rate", .float, 0, some (mkRat (-1) 2),
          some ⟨some (-100), some 1⟩⟩ ∧
      decValue
        ⟨"pheromone_decay_rate", .float, 0, some (mkRat (-1) 2),
          some ⟨some (-100), some 1⟩⟩ ≤ 1) :=
  c1_values_stay_in_range
    ⟨"pheromone_decay_rate", .float, 0, some (mkRat (-1) 2),
      some ⟨some (-100), some 1⟩⟩ (by decide)
    ⟨some (-100), some 1⟩ (-100) 1 rfl rfl rfl 0 5 "abc"

end PhysariumControl
